import Mathlib

/-!
Verification development for the AR-Detection repository.

The repository computes integrated vapor transport (IVT) from moisture
fluxes (`compute_ivt.py`), decomposes the IVT field into a background and an
anomaly (`compute_ivt-anomaly.py`, functions `filterData` and
`filterData_250`), detects AR objects per time slice (`detect_ARs.py`), and
links detections into tracks (`trace_ARs.py`, using `ipart.AR_tracer`).

Floating-point values are idealized as exact arithmetic: integer-valued
grids (`ℤ`) for the morphological decomposition, rationals (`ℚ`) for
distances, and reals (`ℝ`) for the square root in the IVT magnitude.
-/

namespace ARDetection

/-! ## Grid model

A field is a function on a finite 3-D index grid `(time, lat, lon)`,
mirroring the numpy arrays of shape `(time, lat, lon)`.
-/

/-- Index space of a `(time, lat, lon)` gridded field. -/
def Idx (t h w : ℕ) : Type := Fin t × Fin h × Fin w

instance (t h w : ℕ) : Fintype (Idx t h w) := instFintypeProd _ _

instance (t h w : ℕ) : DecidableEq (Idx t h w) := instDecidableEqProd

/-- Integer coordinates of a grid index. -/
def idxZ {t h w : ℕ} (p : Idx t h w) : ℤ × ℤ × ℤ :=
  ((p.1 : ℤ), ((p.2.1 : ℤ), (p.2.2 : ℤ)))

/-- Componentwise addition of an integer offset to integer coordinates. -/
def addOff (p o : ℤ × ℤ × ℤ) : ℤ × ℤ × ℤ :=
  (p.1 + o.1, (p.2.1 + o.2.1, p.2.2 + o.2.2))

/-- Clamp integer coordinates back into the grid: `some` index when the
coordinates are in bounds, `none` otherwise (truncated neighborhoods at the
array boundary, no wraparound). -/
def toIdx (t h w : ℕ) (z : ℤ × ℤ × ℤ) : Option (Idx t h w) :=
  if hb : 0 ≤ z.1 ∧ z.1 < (t : ℤ) ∧ 0 ≤ z.2.1 ∧ z.2.1 < (h : ℤ) ∧
      0 ≤ z.2.2 ∧ z.2.2 < (w : ℤ) then
    some (⟨z.1.toNat, by omega⟩, ⟨z.2.1.toNat, by omega⟩, ⟨z.2.2.toNat, by omega⟩)
  else
    none

/-! ## Structuring element

`filterData` builds the structuring element with `funcs.get3DEllipse`
(module `utils`, not part of the repository sources) and then replaces it
with a full cube of ones when a kernel half-extent reaches a size threshold
(`compute_ivt-anomaly.py` lines 174-177:
`if kernel[0]>=10 or kernel[1]>=6: ele=np.ones(ele.shape)`).
-/

/-- The integer offsets `-n, …, n`, as produced by an arange over the
bounding box of the element. -/
def rangeOffsets (n : ℕ) : List ℤ :=
  (List.range (2 * n + 1)).map (fun i : ℕ => (i : ℤ) - (n : ℤ))

/-- All offsets of the bounding box with half-extents `(th, sh, sh)`:
the full-cube structuring element (`np.ones(ele.shape)`). -/
def boxOffsets (th sh : ℕ) : List (ℤ × ℤ × ℤ) :=
  (rangeOffsets th).flatMap (fun i =>
    (rangeOffsets sh).flatMap (fun j =>
      (rangeOffsets sh).map (fun k => (i, (j, k)))))

/-- The ellipsoid inequality `(i/th)^2 + (j/sh)^2 + (k/sh)^2 ≤ 1`, cleared
of denominators: `i^2·sh^2 + (j^2 + k^2)·th^2 ≤ th^2·sh^2`. -/
def inEllipsoid (th sh : ℕ) (o : ℤ × ℤ × ℤ) : Bool :=
  decide (o.1 ^ 2 * (sh : ℤ) ^ 2 + (o.2.1 ^ 2 + o.2.2 ^ 2) * (th : ℤ) ^ 2 ≤
    (th : ℤ) ^ 2 * (sh : ℤ) ^ 2)

/-- Modelled from the spec: `funcs.get3DEllipse` (imported from the missing
`utils` module) returns the boolean 3-D mask of half-extents
`(t_half, s_half, s_half)` whose true cells are the integer offsets
satisfying the ellipsoid equation bounded by the half-extents. -/
def get3DEllipse (th sh : ℕ) : List (ℤ × ℤ × ℤ) :=
  (boxOffsets th sh).filter (inEllipsoid th sh)

/-- The structuring element actually used by `filterData`: the ellipsoid by
default, overridden to a full cube of the same shape when `kernel[0] >= 10`
or `kernel[1] >= 6`. -/
def structElem (th sh : ℕ) : List (ℤ × ℤ × ℤ) :=
  if 10 ≤ th ∨ 6 ≤ sh then boxOffsets th sh else get3DEllipse th sh

/-! ## Grayscale erosion, dilation, reconstruction by dilation

`filterData` computes `lm = morphology.erosion(ivt.data, selem=ele)` and
`ivtrec = morphology.reconstruction(lm, ivt, method='dilation')`.
Erosion is the pointwise minimum over the structuring-element neighborhood,
dilation the pointwise maximum, with neighborhoods truncated at the array
boundary.  Reconstruction by dilation iterates `min(dilate(marker), mask)`
to its fixed point; on a finite integer grid the fixed point is reached
within `1 + Σ (mask - marker)` iterations, which is taken as the explicit
iteration count. -/

/-- Values of `f` over the in-bounds structuring-element neighborhood
of `p`. -/
def neighVals {t h w : ℕ} (ele : List (ℤ × ℤ × ℤ)) (f : Idx t h w → ℤ)
    (p : Idx t h w) : List ℤ :=
  (ele.filterMap (fun o => toIdx t h w (addOff (idxZ p) o))).map f

/-- Grayscale erosion: pointwise minimum over the neighborhood.  The center
offset `(0,0,0)` always belongs to the structuring element, so folding with
initial value `f p` computes exactly the neighborhood minimum. -/
def erode {t h w : ℕ} (ele : List (ℤ × ℤ × ℤ)) (f : Idx t h w → ℤ) :
    Idx t h w → ℤ :=
  fun p => (neighVals ele f p).foldr min (f p)

/-- Grayscale dilation: pointwise maximum over the neighborhood. -/
def dilate {t h w : ℕ} (ele : List (ℤ × ℤ × ℤ)) (f : Idx t h w → ℤ) :
    Idx t h w → ℤ :=
  fun p => (neighVals ele f p).foldr max (f p)

/-- One step of reconstruction by dilation: dilate the current marker and
clip it under the mask. -/
def reconStep {t h w : ℕ} (ele : List (ℤ × ℤ × ℤ)) (mask g : Idx t h w → ℤ) :
    Idx t h w → ℤ :=
  fun p => min (dilate ele g p) (mask p)

/-- Iteration budget that provably reaches the fixed point when
`marker ≤ mask`: each non-fixed step raises some cell by at least one and
never overshoots the mask. -/
def reconFuel {t h w : ℕ} (mask marker : Idx t h w → ℤ) : ℕ :=
  Finset.univ.sum (fun p : Idx t h w => (mask p - marker p).toNat) + 1

/-- Morphological reconstruction by dilation of `marker` under `mask`
(`morphology.reconstruction(lm, ivt, method='dilation')`). -/
def reconstructByDilation {t h w : ℕ} (ele : List (ℤ × ℤ × ℤ))
    (mask marker : Idx t h w → ℤ) : Idx t h w → ℤ :=
  (reconStep ele mask)^[reconFuel mask marker] marker

/-! ## The two decomposition paths of `compute_ivt-anomaly.py` -/

/-- `filterData(ivt, kernel)`: the morphological-reconstruction (THR) path.
Builds the structuring element, erodes the raw field into a marker,
reconstructs the background by dilation under the raw field, and returns
`(ivt, ivtrec, ivtano)` with `ivtano = ivt - ivtrec`. -/
def filterData {t h w : ℕ} (kernel : ℕ × ℕ) (ivt : Idx t h w → ℤ) :
    (Idx t h w → ℤ) × (Idx t h w → ℤ) × (Idx t h w → ℤ) :=
  let ele := structElem kernel.1 kernel.2
  let lm := erode ele ivt
  let ivtrec := reconstructByDilation ele ivt lm
  (ivt, ivtrec, fun p => ivt p - ivtrec p)

/-- `filterData_250(ivt, ivt_mean)`: the climatology-subtraction path that
`main` actually invokes.  Both returned fields are `ivt - ivt_mean`
(`ivtrec = ivt - ivt_mean; ivtano = ivt - ivt_mean`). -/
def filterData_250 {ι : Type} (ivt ivt_mean : ι → ℤ) :
    (ι → ℤ) × (ι → ℤ) × (ι → ℤ) :=
  (ivt, fun p => ivt p - ivt_mean p, fun p => ivt p - ivt_mean p)

/-! ## Helper lemmas for the decomposition -/

lemma foldr_min_le_init (l : List ℤ) (b : ℤ) : l.foldr min b ≤ b := by
  induction l with
  | nil => exact le_refl b
  | cons a l ih => exact le_trans (min_le_right a (l.foldr min b)) ih

lemma erode_le {t h w : ℕ} (ele : List (ℤ × ℤ × ℤ)) (f : Idx t h w → ℤ)
    (p : Idx t h w) : erode ele f p ≤ f p :=
  foldr_min_le_init _ _

lemma reconstructByDilation_le_mask {t h w : ℕ} (ele : List (ℤ × ℤ × ℤ))
    (mask marker : Idx t h w → ℤ) (p : Idx t h w) :
    reconstructByDilation ele mask marker p ≤ mask p := by
  unfold reconstructByDilation reconFuel
  rw [Function.iterate_succ_apply']
  exact min_le_right _ _

lemma filterData_rec_le {t h w : ℕ} (kernel : ℕ × ℕ) (ivt : Idx t h w → ℤ)
    (p : Idx t h w) : (filterData kernel ivt).2.1 p ≤ ivt p :=
  reconstructByDilation_le_mask _ _ _ _

lemma mem_rangeOffsets (n : ℕ) (z : ℤ) :
    z ∈ rangeOffsets n ↔ -(n : ℤ) ≤ z ∧ z ≤ n := by
  simp only [rangeOffsets, List.mem_map, List.mem_range]
  constructor
  · rintro ⟨i, hi, rfl⟩
    omega
  · rintro ⟨h1, h2⟩
    exact ⟨(z + n).toNat, by omega, by omega⟩

lemma mem_boxOffsets (th sh : ℕ) (i j k : ℤ) :
    (i, (j, k)) ∈ boxOffsets th sh ↔
      -(th : ℤ) ≤ i ∧ i ≤ th ∧ -(sh : ℤ) ≤ j ∧ j ≤ sh ∧
        -(sh : ℤ) ≤ k ∧ k ≤ sh := by
  simp only [boxOffsets, List.mem_flatMap, List.mem_map, mem_rangeOffsets,
    Prod.mk.injEq]
  constructor
  · rintro ⟨a, ha, b, hb, c, hc, rfl, rfl, rfl⟩
    exact ⟨ha.1, ha.2, hb.1, hb.2, hc.1, hc.2⟩
  · rintro ⟨h1, h2, h3, h4, h5, h6⟩
    exact ⟨i, ⟨h1, h2⟩, j, ⟨h3, h4⟩, k, ⟨h5, h6⟩, rfl, rfl, rfl⟩

/-! ## Claim theorems for the decomposition -/

/-- C5: the structuring element used by the morphological erosion is the
boolean set of integer offsets satisfying the ellipsoid equation bounded by
the half-extents `(t_half, s_half, s_half)`, except that when either
half-extent reaches its size threshold (10 time steps, 6 grid cells) the
element is the full cube of the same shape. -/
theorem structuring_element_is_ellipsoid_or_cube (th sh : ℕ) (i j k : ℤ) :
    (i, (j, k)) ∈ structElem th sh ↔
      ((-(th : ℤ) ≤ i ∧ i ≤ th ∧ -(sh : ℤ) ≤ j ∧ j ≤ sh ∧
          -(sh : ℤ) ≤ k ∧ k ≤ sh) ∧
        (10 ≤ th ∨ 6 ≤ sh ∨
          i ^ 2 * (sh : ℤ) ^ 2 + (j ^ 2 + k ^ 2) * (th : ℤ) ^ 2 ≤
            (th : ℤ) ^ 2 * (sh : ℤ) ^ 2)) := by
  unfold structElem
  by_cases hcube : 10 ≤ th ∨ 6 ≤ sh
  · simp only [hcube, if_true, mem_boxOffsets]
    tauto
  · simp only [hcube, if_false, get3DEllipse, List.mem_filter, mem_boxOffsets,
      inEllipsoid, decide_eq_true_eq]
    push_neg at hcube
    constructor
    · rintro ⟨hbox, hell⟩
      exact ⟨hbox, Or.inr (Or.inr hell)⟩
    · rintro ⟨hbox, hor⟩
      refine ⟨hbox, ?_⟩
      rcases hor with h | h | h
      · omega
      · omega
      · exact h

/-- C1 (counterexample): on the climatology-subtraction path
`filterData_250` actually invoked by `main`, the produced anomaly does not
equal raw minus background: with raw = 5 and climatological mean = 2, both
`ivt_rec` and `ivt_ano` are 3, while raw − background = 2. -/
theorem anomaly_ne_raw_sub_background_on_250_path :
    ¬ ((filterData_250 (fun _ : Unit => (5 : ℤ)) (fun _ => 2)).2.2 () =
        (fun _ : Unit => (5 : ℤ)) () -
          (filterData_250 (fun _ : Unit => (5 : ℤ)) (fun _ => 2)).2.1 ()) := by
  decide

/-- C1 (amended): on the morphological-reconstruction path `filterData`,
the background `ivt_rec` is ≤ raw pointwise and the anomaly `ivt_ano`
equals raw − background exactly; on the climatology-subtraction path
`filterData_250` actually invoked by `main`, both `ivt_rec` and `ivt_ano`
equal raw − climatological mean, so the anomaly coincides with the
background rather than with raw − background. -/
theorem decomposition_background_anomaly :
    (∀ (t h w : ℕ) (kernel : ℕ × ℕ) (ivt : Idx t h w → ℤ) (p : Idx t h w),
        (filterData kernel ivt).2.1 p ≤ ivt p ∧
        (filterData kernel ivt).2.2 p = ivt p - (filterData kernel ivt).2.1 p) ∧
    (∀ (ι : Type) (ivt ivt_mean : ι → ℤ) (p : ι),
        (filterData_250 ivt ivt_mean).2.1 p = ivt p - ivt_mean p ∧
        (filterData_250 ivt ivt_mean).2.2 p = ivt p - ivt_mean p) := by
  constructor
  · intro t h w kernel ivt p
    exact ⟨filterData_rec_le kernel ivt p, rfl⟩
  · intro ι ivt ivt_mean p
    exact ⟨rfl, rfl⟩

/-- C2 (counterexample): on the path actually invoked by the pipeline
(`filterData_250`), the anomaly is negative where raw is below the
climatological mean: raw = 1, mean = 2 gives anomaly −1. -/
theorem anomaly_negative_on_250_path :
    ¬ (0 ≤ (filterData_250 (fun _ : Unit => (1 : ℤ)) (fun _ => 2)).2.2 ()) := by
  decide

/-- C2 (amended): on the morphological path `filterData` the anomaly
`ivt_ano` is non-negative at every grid point; on the climatology path
`filterData_250` actually invoked by `main`, the anomaly equals
raw − climatological mean and is negative exactly where raw < mean. -/
theorem anomaly_nonneg_on_morphological_path :
    (∀ (t h w : ℕ) (kernel : ℕ × ℕ) (ivt : Idx t h w → ℤ) (p : Idx t h w),
        0 ≤ (filterData kernel ivt).2.2 p) ∧
    (∀ (ι : Type) (ivt ivt_mean : ι → ℤ) (p : ι),
        (filterData_250 ivt ivt_mean).2.2 p < 0 ↔ ivt p < ivt_mean p) := by
  constructor
  · intro t h w kernel ivt p
    exact sub_nonneg.mpr (filterData_rec_le kernel ivt p)
  · intro ι ivt ivt_mean p
    simp [filterData_250, sub_neg]

/-! ## `compute_ivt.py`

`main` computes `ivtdata = np.ma.sqrt(ufluxNV.data**2 + vfluxNV.data**2)`
(line 36).  Floating-point arithmetic is idealized as real arithmetic. -/

/-- The IVT field computed by `compute_ivt.main`: the elementwise magnitude
`sqrt(uflux^2 + vflux^2)` of the moisture-flux vector. -/
noncomputable def computeIVT {ι : Type} (uflux vflux : ι → ℝ) : ι → ℝ :=
  fun p => Real.sqrt (uflux p ^ 2 + vflux p ^ 2)

/-! ## `detect_ARs.py`: shape check and batch isolation

`main` checks (lines 209-213) that the flux fields are 3-D and that the
flux and IVT shapes agree, raising an exception otherwise; the batch driver
hands each file to an independent worker (`pool.map(main, ...)`), so one
file's result is a function of that file alone. -/

/-- The numpy shapes of the three co-registered input fields of one file,
in order `qu`, `qv`, `ivt` (a shape is the list of axis lengths). -/
structure DetectShapes where
  qu : List ℕ
  qv : List ℕ
  ivt : List ℕ
deriving DecidableEq

/-- The data shape check of `detect_ARs.main` (lines 208-213): first
`np.ndim(qu) != 3 or np.ndim(qv) != 3`, then
`qu.shape != qv.shape or ivt.shape != qu.shape`. -/
def shapeCheck (s : DetectShapes) : Except String Unit :=
  if s.qu.length ≠ 3 ∨ s.qv.length ≠ 3 then
    Except.error "<qu> and <qv> should be 3D data."
  else if s.qu ≠ s.qv ∨ s.ivt ≠ s.qu then
    Except.error "Data shape dismatch"
  else
    Except.ok ()

/-- The batch of files, each processed independently by a worker
(`pool.map(main, IVT_FILE_NAME)`). -/
def runDetectBatch (files : List DetectShapes) : List (Except String Unit) :=
  files.map shapeCheck

/-! ## `detect_ARs.py`: the per-slice output loop

For each `(tidx, timett, label, result_df)` yielded by the detection
generator, the loop (lines 253-262) appends the record table to the CSV
file (`result_df.to_csv(dfout, header=dfout.tell()==0, ...)`), saves the
label raster to the netCDF file, and then evaluates
`funcs._saveNCVAR(ncfout, angle)` and `funcs._saveNCVAR(ncfout, cross)`.
The names `angle` and `cross` are bound nowhere in the module, so Python
name resolution is modelled explicitly against the set of names in scope
inside the loop body. -/

/-- A line of the record CSV file: the header line or a data row. -/
inductive CsvLine where
  | header : CsvLine
  | data : String → CsvLine
deriving DecidableEq

/-- One `(tidx, timett, label, result_df)` tuple yielded by `findARsGen`:
the data rows of `result_df` and the label raster (flattened). -/
structure DetectStep where
  record : List String
  label : List ℤ
deriving DecidableEq

/-- Files written by the loop: the record CSV and the label netCDF. -/
structure RunState where
  csv : List CsvLine
  nc : List (List ℤ)
deriving DecidableEq

/-- `result_df.to_csv(dfout, header=dfout.tell()==0, index=False)` on a
file opened in append mode: append the rows, preceded by the header line
exactly when the file is empty at this moment. -/
def writeRecord (csv : List CsvLine) (rows : List String) : List CsvLine :=
  csv ++ (if csv.isEmpty then CsvLine.header :: rows.map CsvLine.data
          else rows.map CsvLine.data)

/-- The names in scope inside the output loop of `detect_ARs.main`: the
module-level bindings and the locals of `main`, including the loop
variables `tidx, timett, label, result_df`. -/
def detectLoopScope : List String :=
  ["OUTPUTDIR", "PLOT", "LAT1", "LAT2", "SHIFT_LON", "PARAM_DICT",
   "os", "sys", "np", "matplotlib", "plt", "Dataset", "time", "glob",
   "multiprocessing", "funcs", "plot", "plotAR", "findARsGen", "main",
   "IVT_FILE_NAME", "YEAR", "MONTH", "LABEL_FILE_OUT_NAME",
   "RECORD_FILE_OUT_NAME", "ivtNV", "ivtrecNV", "ivtanoNV", "quNV", "qvNV",
   "latax", "lonax", "timeax", "plot_dir", "abpath_out", "ncfout", "dfout",
   "finder_gen", "tidx", "timett", "label", "result_df"]

/-- Python name resolution: a bare name evaluates to a value when bound in
an enclosing scope and raises `NameError` otherwise. -/
def resolveName (scope : List String) (n : String) : Except String Unit :=
  if scope.contains n then Except.ok ()
  else Except.error ("NameError: name " ++ n ++ " is not defined")

/-- The body of the output loop for one yielded step, in source order:
write the CSV record (line 256), save the label raster (lines 259-260),
then save `angle` (line 261) and `cross` (line 262), each of which first
resolves the bare name. -/
def detectStepBody (st : RunState) (s : DetectStep) : RunState × Option String :=
  let st1 : RunState := ⟨writeRecord st.csv s.record, st.nc ++ [s.label]⟩
  match resolveName detectLoopScope "angle" with
  | Except.error e => (st1, some e)
  | Except.ok _ =>
    match resolveName detectLoopScope "cross" with
    | Except.error e => (st1, some e)
    | Except.ok _ => (st1, none)

/-- The output loop of `detect_ARs.main`: process the yielded steps in
order, aborting with the exception message if a step raises. -/
def runDetectLoop (st : RunState) : List DetectStep → RunState × Option String
  | [] => (st, none)
  | s :: rest =>
    match detectStepBody st s with
    | (st', some e) => (st', some e)
    | (st', none) => runDetectLoop st' rest

/-- Number of header lines in a record CSV file. -/
def headerCount (csv : List CsvLine) : ℕ :=
  csv.count CsvLine.header

/-- Run a sequence of per-slice CSV appends (the write of line 256, with
the loop's other statements elided). -/
def runWrites (csv : List CsvLine) (writes : List (List String)) : List CsvLine :=
  writes.foldl writeRecord csv

/-! ## Helper lemmas for the CSV header invariant -/

lemma headerCount_append (a b : List CsvLine) :
    headerCount (a ++ b) = headerCount a + headerCount b :=
  List.count_append _ _ _

lemma headerCount_map_data (rows : List String) :
    headerCount (rows.map CsvLine.data) = 0 := by
  induction rows with
  | nil => rfl
  | cons r rows ih =>
    simp only [List.map_cons, headerCount, List.count_cons, ih]
    simp [headerCount] at ih
    simp [ih]

lemma writeRecord_ne_nil (csv : List CsvLine) (rows : List String) :
    csv ≠ [] → writeRecord csv rows ≠ [] := by
  intro hne
  unfold writeRecord
  intro hcontra
  rcases List.append_eq_nil.mp hcontra with ⟨h1, _⟩
  exact hne h1

lemma headerCount_writeRecord_of_ne_nil (csv : List CsvLine)
    (rows : List String) (hne : csv ≠ []) :
    headerCount (writeRecord csv rows) = headerCount csv := by
  unfold writeRecord
  rw [if_neg (by simpa [List.isEmpty_iff] using hne)]
  rw [headerCount_append, headerCount_map_data, Nat.add_zero]

lemma headerCount_runWrites_of_ne_nil (writes : List (List String)) :
    ∀ csv : List CsvLine, csv ≠ [] →
      headerCount (runWrites csv writes) = headerCount csv := by
  induction writes with
  | nil => intro csv _; rfl
  | cons wr writes ih =>
    intro csv hne
    show headerCount (runWrites (writeRecord csv wr) writes) = headerCount csv
    rw [ih (writeRecord csv wr) (writeRecord_ne_nil csv wr hne),
      headerCount_writeRecord_of_ne_nil csv wr hne]

/-! ## Claim theorems for `detect_ARs.py` and `compute_ivt.py` -/

/-- C8: the IVT field computed by `compute_ivt.main` equals
`sqrt(uflux^2 + vflux^2)` elementwise and is non-negative at every grid
point. -/
theorem ivt_is_flux_magnitude_and_nonneg {ι : Type} (uflux vflux : ι → ℝ)
    (p : ι) :
    computeIVT uflux vflux p = Real.sqrt (uflux p ^ 2 + vflux p ^ 2) ∧
    computeIVT uflux vflux p ^ 2 = uflux p ^ 2 + vflux p ^ 2 ∧
    0 ≤ computeIVT uflux vflux p := by
  refine ⟨rfl, ?_, Real.sqrt_nonneg _⟩
  exact Real.sq_sqrt (by positivity)

/-- C7: the detection stage errors exactly when the co-registered inputs
are malformed (a flux field is not 3-D, or the flux and IVT shapes
disagree), and in the batch each file's outcome is a function of that file
alone, so one file's error leaves sibling files' outcomes unchanged. -/
theorem shape_error_iff_malformed_and_isolated :
    (∀ s : DetectShapes,
        (∃ e, shapeCheck s = Except.error e) ↔
          (s.qu.length ≠ 3 ∨ s.qv.length ≠ 3 ∨ s.qu ≠ s.qv ∨ s.ivt ≠ s.qu)) ∧
    (∀ (files files' : List DetectShapes) (i : ℕ),
        files[i]? = files'[i]? →
        (runDetectBatch files)[i]? = (runDetectBatch files')[i]?) := by
  constructor
  · intro s
    unfold shapeCheck
    by_cases h1 : s.qu.length ≠ 3 ∨ s.qv.length ≠ 3
    · rw [if_pos h1]
      exact ⟨fun _ => by tauto, fun _ => ⟨_, rfl⟩⟩
    · rw [if_neg h1]
      by_cases h2 : s.qu ≠ s.qv ∨ s.ivt ≠ s.qu
      · rw [if_pos h2]
        exact ⟨fun _ => by tauto, fun _ => ⟨_, rfl⟩⟩
      · rw [if_neg h2]
        constructor
        · rintro ⟨e, he⟩
          exact absurd he (by simp)
        · intro hmal
          tauto
  · intro files files' i hi
    unfold runDetectBatch
    rw [List.getElem?_map, List.getElem?_map, hi]

/-- C7 (witness): a file with 2-D flux shapes fails the check, and its
sibling file at index 1 of the batch has the same outcome as in a batch
where the bad file is replaced by a well-formed one. -/
theorem shape_check_witness :
    (∃ e, shapeCheck ⟨[4, 2], [4, 2, 2], [4, 2, 2]⟩ = Except.error e) ∧
    (runDetectBatch [⟨[4, 2], [4, 2, 2], [4, 2, 2]⟩,
        ⟨[4, 2, 2], [4, 2, 2], [4, 2, 2]⟩])[1]? =
      (runDetectBatch [⟨[4, 2, 2], [4, 2, 2], [4, 2, 2]⟩,
        ⟨[4, 2, 2], [4, 2, 2], [4, 2, 2]⟩])[1]? :=
  ⟨(shape_error_iff_malformed_and_isolated.1 _).mpr (Or.inl (by decide)),
   shape_error_iff_malformed_and_isolated.2 _ _ 1 rfl⟩

/-- C3: the claim promises one `(label, record)` pair per yielded time
step, but on every run whose generator yields at least one step the output
loop crashes: after writing the first record and label it evaluates the
unbound name `angle` (detect_ARs.py line 261) and raises `NameError`, so
no step after the first is processed at all. -/
theorem detect_loop_raises_nameerror (st : RunState) (s : DetectStep)
    (rest : List DetectStep) :
    runDetectLoop st (s :: rest) =
      (⟨writeRecord st.csv s.record, st.nc ++ [s.label]⟩,
        some "NameError: name angle is not defined") := by
  rfl

/-- C9: on each per-slice CSV write the header is emitted iff the file is
empty at that moment, so a run adds a header exactly when it starts from an
empty file and performs at least one write; in particular a run over an
initially empty (or single-header) file leaves at most one header row. -/
theorem csv_header_at_most_once (csv : List CsvLine)
    (writes : List (List String)) (hc : headerCount csv ≤ 1) :
    headerCount (runWrites csv writes) =
      headerCount csv + (if csv = [] ∧ writes ≠ [] then 1 else 0) ∧
    headerCount (runWrites csv writes) ≤ 1 := by
  have key : headerCount (runWrites csv writes) =
      headerCount csv + (if csv = [] ∧ writes ≠ [] then 1 else 0) := by
    match csv, writes with
    | csv, [] => simp [runWrites]
    | [], wr :: writes =>
      have h1 : writeRecord [] wr = CsvLine.header :: wr.map CsvLine.data := rfl
      show headerCount (runWrites (writeRecord [] wr) writes) = _
      rw [headerCount_runWrites_of_ne_nil writes _ (by simp [h1]), h1]
      have h0 : (wr.map CsvLine.data).count CsvLine.header = 0 :=
        headerCount_map_data wr
      have h2 : headerCount (CsvLine.header :: wr.map CsvLine.data) = 1 := by
        simp [headerCount, List.count_cons, h0]
      simp [h2, h0, headerCount]
    | c :: csv, wr :: writes =>
      rw [headerCount_runWrites_of_ne_nil (wr :: writes) (c :: csv)
        (by simp)]
      simp
  refine ⟨key, ?_⟩
  rw [key]
  rcases Decidable.em (csv = [] ∧ writes ≠ []) with h | h
  · rw [if_pos h, h.1]
    simp [headerCount]
  · rw [if_neg h]
    omega

/-- C9 (witness): a fresh run writing two slices to an initially empty
record file ends with exactly one header row. -/
theorem csv_header_at_most_once_witness :
    headerCount (runWrites [] [["r1"], ["r2"]]) = 0 + 1 ∧
    headerCount (runWrites [] [["r1"], ["r2"]]) ≤ 1 := by
  have h := csv_header_at_most_once [] [["r1"], ["r2"]] (by decide)
  exact ⟨by rw [h.1]; decide, h.2⟩

/-! ## `trace_ARs.py`: the tracking stage

`trace_ARs.main` calls `trackARs(ardf, TIME_GAP_ALLOW, MAX_DIST_ALLOW,
track_scheme=TRACK_SCHEME)` and then `filterTracks(track_list,
MIN_DURATION, MIN_NONRELAX)`, both imported from `ipart.AR_tracer`, which
is not part of the repository sources.  Both are modelled from the spec
(sections 4.5 and 4.6). -/

/-- `TIME_GAP_ALLOW` (trace_ARs.py line 41), in hours. -/
def TIME_GAP_ALLOW : ℤ := 6

/-- `MAX_DIST_ALLOW` (trace_ARs.py line 48), in km. -/
def MAX_DIST_ALLOW : ℚ := 1200

/-- `MIN_DURATION` (trace_ARs.py line 51), in hours. -/
def MIN_DURATION : ℤ := 24

/-- `MIN_NONRELAX` (trace_ARs.py line 54). -/
def MIN_NONRELAX : ℕ := 2

/-- One AR candidate record of the per-slice detection table: its id, its
time stamp (hours), and the lat/lon member cells of its mask. -/
structure ARCand where
  id : ℕ
  time : ℤ
  cells : List (ℚ × ℚ)
deriving DecidableEq

/-- A track: a time-ordered list of member candidates. -/
structure ModelTrack where
  members : List ARCand
deriving DecidableEq

/-- Minimum of a list of rationals (0 on the empty list). -/
def listMin : List ℚ → ℚ
  | [] => 0
  | a :: l => l.foldr min a

/-- Maximum of a list of rationals (0 on the empty list). -/
def listMax : List ℚ → ℚ
  | [] => 0
  | a :: l => l.foldr max a

/-- Modelled from the spec: the directed Hausdorff distance between two
member-cell sets, over a pluggable geodesic point distance `pd`. -/
def directedHaus (pd : ℚ × ℚ → ℚ × ℚ → ℚ) (xs ys : List (ℚ × ℚ)) : ℚ :=
  listMax (xs.map (fun x => listMin (ys.map (pd x))))

/-- Modelled from the spec: the Hausdorff distance is the larger of the two
directed distances. -/
def hausdorff (pd : ℚ × ℚ → ℚ × ℚ → ℚ) (xs ys : List (ℚ × ℚ)) : ℚ :=
  max (directedHaus pd xs ys) (directedHaus pd ys xs)

/-- Hausdorff distance between two candidates over their member cells. -/
def candDist (pd : ℚ × ℚ → ℚ × ℚ → ℚ) (a b : ARCand) : ℚ :=
  hausdorff pd a.cells b.cells

/-- Tie-break of the simple scheme: `c` beats `b` as continuation of a
track ending in `last` when it is strictly closer, or equally close with
the smaller candidate id. -/
def betterMatch (pd : ℚ × ℚ → ℚ × ℚ → ℚ) (last c b : ARCand) : Bool :=
  decide (candDist pd last c < candDist pd last b) ||
    (decide (candDist pd last c = candDist pd last b) && decide (c.id < b.id))

/-- Modelled from the spec: the single best continuation of a track ending
in `last`, among the candidates within `maxd` (boundary inclusive), chosen
by smallest Hausdorff distance with ties broken by smallest id. -/
def bestMatch (pd : ℚ × ℚ → ℚ × ℚ → ℚ) (maxd : ℚ) (last : ARCand)
    (cands : List ARCand) : Option ARCand :=
  cands.foldl (fun acc c =>
    if candDist pd last c ≤ maxd then
      match acc with
      | none => some c
      | some b => if betterMatch pd last c b then some c else some b
    else acc) none

/-- Modelled from the spec (simple scheme): extend each live track with its
best continuation at the new time slice; a claimed candidate is removed
from the pool, and the unclaimed remainder is returned to start new
tracks. -/
def extendTracks (pd : ℚ × ℚ → ℚ × ℚ → ℚ) (gap : ℤ) (maxd : ℚ) :
    List ModelTrack → ℤ → List ARCand → List ModelTrack × List ARCand
  | [], _, cands => ([], cands)
  | tr :: rest, tnew, cands =>
    match tr.members.getLast? with
    | none =>
      let res := extendTracks pd gap maxd rest tnew cands
      (tr :: res.1, res.2)
    | some last =>
      if tnew - last.time ≤ gap then
        match bestMatch pd maxd last cands with
        | some c =>
          let res := extendTracks pd gap maxd rest tnew (cands.erase c)
          (⟨tr.members ++ [c]⟩ :: res.1, res.2)
        | none =>
          let res := extendTracks pd gap maxd rest tnew cands
          (tr :: res.1, res.2)
      else
        let res := extendTracks pd gap maxd rest tnew cands
        (tr :: res.1, res.2)

/-- Modelled from the spec: `trackARs` of `ipart.AR_tracer` in the simple
scheme — fold over the time-ordered slices, extending live tracks and
opening a new track for every unclaimed candidate. -/
def trackARs (pd : ℚ × ℚ → ℚ × ℚ → ℚ) (gap : ℤ) (maxd : ℚ)
    (slices : List (ℤ × List ARCand)) : List ModelTrack :=
  slices.foldl (fun tracks sl =>
    let res := extendTracks pd gap maxd tracks sl.1 sl.2
    res.1 ++ res.2.map (fun c => ⟨[c]⟩)) []

/-- A member record of a formed track, as consumed by `filterTracks`: its
time stamp (hours) and its relaxed flag. -/
structure TrackRecord where
  time : ℤ
  relaxed : Bool
deriving DecidableEq

/-- A track as seen by the track filter. -/
structure ARTrack where
  members : List TrackRecord
deriving DecidableEq

/-- Duration of a track in hours: last-member time minus first-member
time. -/
def duration (tr : ARTrack) : ℤ :=
  ((tr.members.getLast?.map TrackRecord.time).getD 0) -
    ((tr.members.head?.map TrackRecord.time).getD 0)

/-- Number of non-relaxed members of a track. -/
def nonrelaxCount (tr : ARTrack) : ℕ :=
  tr.members.countP (fun m => !m.relaxed)

/-- Modelled from the spec: the keep predicate of `filterTracks` — keep iff
duration ≥ `min_duration` and non-relaxed count ≥ `min_nonrelax`. -/
def keepTrack (mind : ℤ) (minn : ℕ) (tr : ARTrack) : Bool :=
  decide (mind ≤ duration tr) && decide (minn ≤ nonrelaxCount tr)

/-- Modelled from the spec: `filterTracks(track_list, MIN_DURATION,
MIN_NONRELAX)` of `ipart.AR_tracer` keeps exactly the tracks satisfying the
keep predicate, in order. -/
def filterTracks (tracks : List ARTrack) (mind : ℤ) (minn : ℕ) :
    List ARTrack :=
  tracks.filter (keepTrack mind minn)

/-- C4: a track is kept by the track filter iff its duration is
≥ `min_duration` and its non-relaxed member count is ≥ `min_nonrelax`; in
particular (given enough non-relaxed members) a track of duration exactly
`min_duration` is kept and one of duration `min_duration` minus one hour is
dropped. -/
theorem track_filter_keep_iff (mind : ℤ) (minn : ℕ)
    (tracks : List ARTrack) (tr : ARTrack) :
    (tr ∈ filterTracks tracks mind minn ↔
      tr ∈ tracks ∧ mind ≤ duration tr ∧ minn ≤ nonrelaxCount tr) ∧
    (minn ≤ nonrelaxCount tr →
      (duration tr = mind → tr ∈ tracks →
        tr ∈ filterTracks tracks mind minn) ∧
      (duration tr = mind - 1 → tr ∉ filterTracks tracks mind minn)) := by
  have hmem : tr ∈ filterTracks tracks mind minn ↔
      tr ∈ tracks ∧ mind ≤ duration tr ∧ minn ≤ nonrelaxCount tr := by
    unfold filterTracks keepTrack
    rw [List.mem_filter]
    simp [and_assoc]
  refine ⟨hmem, fun hnr => ⟨fun hdur hin => ?_, fun hdur hkept => ?_⟩⟩
  · exact hmem.mpr ⟨hin, le_of_eq hdur.symm, hnr⟩
  · have := (hmem.mp hkept).2.1
    omega

/-- C4 (witness): with the configured `MIN_DURATION = 24` h and
`MIN_NONRELAX = 2`, a two-member non-relaxed track spanning 24 h is kept
and one spanning 23 h is dropped. -/
theorem track_filter_boundary_witness :
    (⟨[⟨0, false⟩, ⟨24, false⟩]⟩ : ARTrack) ∈
      filterTracks [⟨[⟨0, false⟩, ⟨24, false⟩]⟩] MIN_DURATION MIN_NONRELAX ∧
    (⟨[⟨0, false⟩, ⟨23, false⟩]⟩ : ARTrack) ∉
      filterTracks [⟨[⟨0, false⟩, ⟨23, false⟩]⟩] MIN_DURATION MIN_NONRELAX :=
  ⟨((track_filter_keep_iff MIN_DURATION MIN_NONRELAX _ _).2 (by decide)).1
      (by decide) (by decide),
   ((track_filter_keep_iff MIN_DURATION MIN_NONRELAX _ _).2 (by decide)).2
      (by decide)⟩

/-- C6: the tracking stage is deterministic — two runs of the linker over
identical input records (identical ordering, ties in the Hausdorff distance
broken by smallest candidate id) produce identical track assignments. -/
theorem tracker_deterministic (pd : ℚ × ℚ → ℚ × ℚ → ℚ) (gap : ℤ) (maxd : ℚ)
    (slices1 slices2 : List (ℤ × List ARCand)) (h : slices1 = slices2) :
    trackARs pd gap maxd slices1 = trackARs pd gap maxd slices2 := by
  rw [h]

/-- C6 (witness): two runs over the same concrete two-slice input agree. -/
theorem tracker_deterministic_witness :
    trackARs (fun a b => |a.1 - b.1| + |a.2 - b.2|) TIME_GAP_ALLOW
        MAX_DIST_ALLOW
        [(0, [⟨1, 0, [(10, 20)]⟩]), (6, [⟨1, 6, [(10, 22)]⟩])] =
      trackARs (fun a b => |a.1 - b.1| + |a.2 - b.2|) TIME_GAP_ALLOW
        MAX_DIST_ALLOW
        [(0, [⟨1, 0, [(10, 20)]⟩]), (6, [⟨1, 6, [(10, 22)]⟩])] :=
  tracker_deterministic _ TIME_GAP_ALLOW MAX_DIST_ALLOW _ _ rfl

/-! ## Batch drivers: skip-idempotent reruns

Both batch drivers build their work list by skipping every input whose
expected output file already exists (`trace_ARs.py` lines 154-161,
`compute_ivt-anomaly.py` lines 295-302).  Paths are lists of characters;
Python negative-index slicing is embedded exactly. -/

/-- Python `s[-a:]`. -/
def pyTail (a : ℕ) (s : List Char) : List Char :=
  s.drop (s.length - a)

/-- Python `s[-a:-b]`. -/
def pySlice2 (a b : ℕ) (s : List Char) : List Char :=
  (s.drop (s.length - a)).take ((s.length - b) - (s.length - a))

/-- `os.path.split(p)[1]`: the part of the path after the last slash. -/
def pyBasename (s : List Char) : List Char :=
  (s.reverse.takeWhile (fun c => c != '/')).reverse

/-- `os.path.splitext(p)[0]`: the path with its last-dot extension
removed. -/
def pySplitextStem (s : List Char) : List Char :=
  if '.' ∈ s then ((s.reverse.dropWhile (fun c => c != '.')).drop 1).reverse
  else s

/-- `OUTPUTDIR` of `trace_ARs.py` (line 32); it ends in a slash, so
`os.path.join` concatenates. -/
def traceOutputDir : List Char :=
  "/home/jingzhao/wangbp/era5/AR_TEST/THR/tracks/".toList

/-- The output path the trace driver checks for an input file:
`os.path.join(OUTPUTDIR, 'ar_tracks_' + file[-18:])` (line 156). -/
def traceExpectedPath (f : List Char) : List Char :=
  traceOutputDir ++ ("ar_tracks_".toList ++ pyTail 18 f)

/-- The output path `trace_ARs.main` actually writes:
`'ar_tracks_' + filename[-18:-4] + '.csv'` joined to `OUTPUTDIR`
(lines 77-78, 134). -/
def traceMainPath (f : List Char) : List Char :=
  traceOutputDir ++ ("ar_tracks_".toList ++ (pySlice2 18 4 f ++ ".csv".toList))

/-- The work list of the trace driver: inputs whose expected output does
not exist on disk (lines 154-161, `continue` when it exists). -/
def traceWorklist (disk files : List (List Char)) : List (List Char) :=
  files.filter (fun f => decide (traceExpectedPath f ∉ disk))

/-- `OUTPUTDIR` of `compute_ivt-anomaly.py` (line 52). -/
def anoOutputDir : List Char :=
  "/home/jingzhao/wangbp/era5/ivt250_summer_mon/".toList

/-- The output path the anomaly driver checks:
`file[-18:-3] + '-ano-250.nc'` joined to `OUTPUTDIR` (lines 297-298). -/
def anoExpectedPath (f : List Char) : List Char :=
  anoOutputDir ++ (pySlice2 18 3 f ++ "-ano-250.nc".toList)

/-- The output path `compute_ivt-anomaly.main` actually writes:
`splitext(basename(IVT_FILE))[0] + '-ano-250.nc'` joined to `OUTPUTDIR`
(lines 250-255). -/
def anoMainPath (f : List Char) : List Char :=
  anoOutputDir ++ (pySplitextStem (pyBasename f) ++ "-ano-250.nc".toList)

/-- The work list of the anomaly driver (lines 295-302). -/
def anoWorklist (disk files : List (List Char)) : List (List Char) :=
  files.filter (fun f => decide (anoExpectedPath f ∉ disk))

/-! ## Helper lemmas for the driver name computations -/

lemma mem_traceWorklist (disk files : List (List Char)) (f : List Char) :
    f ∈ traceWorklist disk files ↔ f ∈ files ∧ traceExpectedPath f ∉ disk := by
  unfold traceWorklist
  rw [List.mem_filter]
  simp

lemma mem_anoWorklist (disk files : List (List Char)) (f : List Char) :
    f ∈ anoWorklist disk files ↔ f ∈ files ∧ anoExpectedPath f ∉ disk := by
  unfold anoWorklist
  rw [List.mem_filter]
  simp

lemma trace_name_match (g : List Char) :
    pySlice2 18 4 (g ++ ".csv".toList) ++ ".csv".toList =
      pyTail 18 (g ++ ".csv".toList) := by
  have hc4 : (".csv".toList).length = 4 := by decide
  have hfl : (g ++ ".csv".toList).length = g.length + 4 := by
    rw [List.length_append, hc4]
  have hle : (g ++ ".csv".toList).length - 18 ≤ g.length := by omega
  unfold pySlice2 pyTail
  rw [List.drop_append_of_le_length hle]
  have hdl : (g.drop ((g ++ ".csv".toList).length - 18)).length =
      ((g ++ ".csv".toList).length - 4) -
        ((g ++ ".csv".toList).length - 18) := by
    rw [List.length_drop]
    omega
  rw [← hdl, List.take_left]

lemma takeWhile_stops_at (p : Char → Bool) (l r : List Char) (c : Char)
    (hl : ∀ x ∈ l, p x = true) (hc : p c = false) :
    (l ++ c :: r).takeWhile p = l := by
  induction l with
  | nil => simp [List.takeWhile_cons, hc]
  | cons a l ih =>
    have ha : p a = true := hl a (by simp)
    simp only [List.cons_append, List.takeWhile_cons, ha, if_true]
    rw [ih (fun x hx => hl x (by simp [hx]))]

lemma pyBasename_append (d g : List Char) (hslash : '/' ∉ g) :
    pyBasename (d ++ '/' :: (g ++ ".nc".toList)) = g ++ ".nc".toList := by
  unfold pyBasename
  have hrev : (d ++ '/' :: (g ++ ".nc".toList)).reverse =
      (g ++ ".nc".toList).reverse ++ '/' :: d.reverse := by
    simp
  rw [hrev, takeWhile_stops_at _ _ _ _ ?hall (by decide), List.reverse_reverse]
  case hall =>
    intro x hx
    rw [List.mem_reverse] at hx
    rcases List.mem_append.mp hx with h | h
    · have : x ≠ '/' := fun he => hslash (he ▸ h)
      simpa using this
    · have : x = '.' ∨ x = 'n' ∨ x = 'c' := by simpa using h
      rcases this with rfl | rfl | rfl <;> decide

lemma pySplitextStem_append (g : List Char) :
    pySplitextStem (g ++ ".nc".toList) = g := by
  unfold pySplitextStem
  rw [if_pos (by simp)]
  have hrev : (g ++ ".nc".toList).reverse = 'c' :: 'n' :: '.' :: g.reverse := by
    simp
  rw [hrev]
  have hdw : List.dropWhile (fun c => c != '.')
      ('c' :: 'n' :: '.' :: g.reverse) = '.' :: g.reverse := by
    simp [List.dropWhile_cons]
  rw [hdw]
  simp

lemma ano_slice (d g : List Char) (hg : g.length = 15) :
    pySlice2 18 3 (d ++ '/' :: (g ++ ".nc".toList)) = g := by
  have key : d ++ '/' :: (g ++ ".nc".toList) =
      (d ++ ['/']) ++ (g ++ ".nc".toList) := by simp
  rw [key]
  unfold pySlice2
  have hlen : ((d ++ ['/']) ++ (g ++ ".nc".toList)).length = d.length + 19 := by
    simp [hg]
  rw [hlen]
  have h1 : d.length + 19 - 18 = (d ++ ['/']).length := by
    simp
  rw [h1, List.drop_left]
  have h2 : d.length + 19 - 3 - (d ++ ['/']).length = g.length := by
    simp
    omega
  rw [h2, List.take_left]

lemma trace_paths_agree (g : List Char) :
    traceMainPath (g ++ ".csv".toList) = traceExpectedPath (g ++ ".csv".toList) := by
  unfold traceMainPath traceExpectedPath
  rw [trace_name_match g]

lemma ano_paths_agree (d g : List Char) (hslash : '/' ∉ g)
    (hg : g.length = 15) :
    anoMainPath (d ++ '/' :: (g ++ ".nc".toList)) =
      anoExpectedPath (d ++ '/' :: (g ++ ".nc".toList)) := by
  unfold anoMainPath anoExpectedPath
  rw [pyBasename_append d g hslash, pySplitextStem_append g,
    ano_slice d g hg]

/-- C10: rerunning a batch driver is skip-idempotent.  For both drivers, an
input is on the work list iff its expected output is absent from disk; and
for inputs named as the pipeline names them (trace inputs ending in
`.csv`; anomaly inputs with an 18-character `*.nc` basename), the path the
worker writes equals the checked path, so a dispatched worker never writes
over a pre-existing output. -/
theorem batch_driver_skip_idempotent :
    (∀ (disk files : List (List Char)) (f : List Char),
        f ∈ traceWorklist disk files ↔
          f ∈ files ∧ traceExpectedPath f ∉ disk) ∧
    (∀ (disk files : List (List Char)) (g : List Char),
        g ++ ".csv".toList ∈ traceWorklist disk files →
        traceMainPath (g ++ ".csv".toList) ∉ disk) ∧
    (∀ (disk files : List (List Char)) (f : List Char),
        f ∈ anoWorklist disk files ↔
          f ∈ files ∧ anoExpectedPath f ∉ disk) ∧
    (∀ (disk files : List (List Char)) (d g : List Char),
        '/' ∉ g → g.length = 15 →
        d ++ '/' :: (g ++ ".nc".toList) ∈ anoWorklist disk files →
        anoMainPath (d ++ '/' :: (g ++ ".nc".toList)) ∉ disk) := by
  refine ⟨mem_traceWorklist, ?_, mem_anoWorklist, ?_⟩
  · intro disk files g hmem
    rw [trace_paths_agree g]
    exact ((mem_traceWorklist disk files _).mp hmem).2
  · intro disk files d g hslash hg hmem
    rw [ano_paths_agree d g hslash hg]
    exact ((mem_anoWorklist disk files _).mp hmem).2

/-- C10 (witness): on a rerun with one pre-existing unrelated output, the
single input of each driver stays on the work list and its worker writes a
path that is not on disk. -/
theorem batch_driver_skip_idempotent_witness :
    traceMainPath ("/thr/arinfo_250/ar_records_1979060100".toList ++
        ".csv".toList) ∉ ["/other/out.csv".toList] ∧
    anoMainPath ("/era5/ivt_summer_mon".toList ++ '/' ::
        ("era5_ivt_201108".toList ++ ".nc".toList)) ∉
      ["/other/out.nc".toList] :=
  ⟨batch_driver_skip_idempotent.2.1 ["/other/out.csv".toList]
      [("/thr/arinfo_250/ar_records_1979060100".toList ++ ".csv".toList)] _
      (by decide),
   batch_driver_skip_idempotent.2.2.2 ["/other/out.nc".toList]
      [("/era5/ivt_summer_mon".toList ++ '/' ::
        ("era5_ivt_201108".toList ++ ".nc".toList))] _ _
      (by decide) (by decide) (by decide)⟩

end ARDetection
